import Mathlib

/-!
Verification of the GuildedIn dungeon-bidding / progression / economy core.

Shallow embedding of the Python source under `app/app`:
  * `app/app/models/guild.py`          (Guild.get_guild_rank)
  * `app/app/models/bot_guild.py`      (BotGuild.calculate_dungeon_bid)
  * `app/app/models/dungeon_system.py` (Dungeon, DungeonContract and their enums)
  * `app/app/models/dungeon_progression.py` (DungeonRun, RoomProgress, MiningOperation)
  * `app/app/services/dungeon_bidding.py`   (process_bidding_results)
  * `app/app/services/dungeon_progression.py` (retreat_from_dungeon,
    start_mining_operation, _simulate_combat)
  * `app/app/services/dungeon_time_manager.py` (check_dungeon_collapses,
    _collapse_dungeon, _check_completion_conditions, update_mining_operations,
    _update_mining_resources)

Conventions of the embedding:
  * wall-clock instants are natural numbers (the code only compares them and
    stores them); durations used in rational arithmetic are rationals;
  * Python `int` columns are `Int`, Python `float` fields are `ℚ` with exact
    arithmetic; Python `int(x)` (truncation toward zero) is `pyTrunc`;
  * JSON dictionaries with numeric values are association lists
    `List (Nat × Int)` (resource names such as `iron_ore` are coded as
    numeric keys) or total maps with default 0 where the code uses
    `dict.get(k, 0)` / item assignment;
  * the SQLAlchemy session is passed explicitly: each service operation is a
    function from the rows it queries to the rows it writes.
-/

namespace GuildedIn

/-- `DungeonStatus` enum from `models/dungeon_system.py`. -/
inductive DungeonStatus
  | discovered | bidding | active | collapsed | completed
  deriving DecidableEq, Repr

/-- `ContractStatus` enum from `models/dungeon_system.py`. -/
inductive ContractStatus
  | pending | awarded | rejected | cancelled
  deriving DecidableEq, Repr

/-- `RunStatus` enum from `models/dungeon_progression.py`. -/
inductive RunStatus
  | preparing | active | suspended | completed | failed | abandoned
  deriving DecidableEq, Repr

/-- `RoomState` enum from `models/dungeon_progression.py`. -/
inductive RoomState
  | unexplored | combat | cleared | mining | exhausted
  deriving DecidableEq, Repr

/-- The `Dungeon` row (`models/dungeon_system.py`), restricted to the columns
read or written by the bidding and time-manager services. -/
structure Dungeon where
  id : Nat
  status : DungeonStatus
  totalRooms : Nat
  bossRoomNumber : Nat
  maxGuildContracts : Nat
  currentContracts : Nat
  completionBonus : Int
  failurePenalty : Int
  biddingClosesAt : Nat
  dungeonClosesAt : Nat
  isCompleted : Bool
  completedByGuildId : Option Nat
  deriving DecidableEq, Repr

/-- The `DungeonContract` row (`models/dungeon_system.py`), restricted to the
columns touched by bidding.  `id` is the autoincrement primary key, so the
contract table's row order is the order of increasing `id`. -/
structure DungeonContract where
  id : Nat
  dungeonId : Nat
  guildId : Nat
  bidAmount : Int
  bidSubmittedAt : Nat
  status : ContractStatus
  awardedAt : Option Nat
  contractValue : Option Int
  accessExpiresAt : Option Nat
  deriving DecidableEq, Repr

/-- The `DungeonRun` row (`models/dungeon_progression.py`), restricted to the
columns touched by the progression service and the time manager. -/
structure DungeonRun where
  id : Nat
  dungeonId : Nat
  guildId : Nat
  contractId : Nat
  currentRoom : Nat
  furthestRoomReached : Nat
  status : RunStatus
  totalLootGained : List (Nat × Int)
  bossDefeated : Bool
  failurePenaltyPaid : Int
  completionBonusEarned : Int
  lastActivity : Nat
  completedAt : Option Nat
  deriving DecidableEq, Repr

/-- The `RoomProgress` row (`models/dungeon_progression.py`).  Note: the model
has no `room_progress_id` column — that attribute exists only on
`MiningOperation`; this fact is what makes `start_mining_operation` crash. -/
structure RoomProgress where
  id : Nat
  runId : Nat
  roomId : Nat
  guildId : Nat
  state : RoomState
  combatCompleted : Bool
  lootCollected : List (Nat × Int)
  miningCompletionPercent : ℚ
  deriving DecidableEq, Repr

/-- The `DungeonRoom` row (`models/dungeon_system.py`), restricted to what
`start_mining_operation` reads. -/
structure DungeonRoom where
  id : Nat
  dungeonId : Nat
  roomNumber : Nat
  isBossRoom : Bool
  combatDifficulty : Int
  miningResources : List (Nat × Int)
  miningDurationHours : Int
  deriving DecidableEq, Repr

/-- Python `int(x)` applied to a float/rational: truncation toward zero. -/
def pyTrunc (q : ℚ) : Int := if q < 0 then ⌈q⌉ else ⌊q⌋

/-! ## Guild rank derivation (`models/guild.py`, `Guild.get_guild_rank`) -/

/-- Guild rank letters, ordered `E < D < C < B < A < S` by `rankValue`. -/
inductive GuildRankTier
  | E | D | C | B | A | S
  deriving DecidableEq, Repr

/-- Ordinal value of a rank tier (E lowest, S highest). -/
def rankValue : GuildRankTier → Nat
  | .E => 0 | .D => 1 | .C => 2 | .B => 3 | .A => 4 | .S => 5

/-- `Guild.get_guild_rank` from `models/guild.py`: the rank tier derived from
`share_price` by the documented threshold if-chain. -/
def getGuildRank (sharePrice : ℚ) : GuildRankTier :=
  if 800 ≤ sharePrice then .S
  else if 401 ≤ sharePrice then .A
  else if 201 ≤ sharePrice then .B
  else if 101 ≤ sharePrice then .C
  else if 51 ≤ sharePrice then .D
  else .E

/-! ## Bot guild bidding (`models/bot_guild.py`) -/

/-- `BotPersonalityType` enum from `models/bot_guild.py`. -/
inductive BotPersonalityType
  | aggressiveTrader | conservativeBuilder | networkingElite
  | dataAnalyst | charismaticLeader | opportunisticShark
  deriving DecidableEq, Repr

/-- `BotBehaviorState` enum from `models/bot_guild.py`. -/
inductive BotBehaviorState
  | growing | consolidating | aggressive | defensive | struggling | dominant
  deriving DecidableEq, Repr

/-- The `BotGuild` row (`models/bot_guild.py`), restricted to the columns read
by `calculate_dungeon_bid` and `update_performance_score`. -/
structure BotGuild where
  id : Nat
  gold : Int
  sharePrice : ℚ
  personalityType : BotPersonalityType
  currentBehavior : BotBehaviorState
  aggressionLevel : ℚ
  riskTolerance : ℚ
  recentPerformanceScore : ℚ
  consecutiveSuccessfulDays : Nat
  deriving DecidableEq, Repr

/-- `BotGuild.calculate_dungeon_bid` from `models/bot_guild.py`:
base bid `0.6 × dungeon_value`, personality multiplier, behavior multiplier,
competition bump, then `min(int(base_bid), int(self.gold * 0.8))`. -/
def calculateDungeonBid (b : BotGuild) (dungeonValue : Int) (competitionLevel : Int) : Int :=
  let base0 : ℚ := (dungeonValue : ℚ) * (6 / 10)
  let base1 : ℚ :=
    match b.personalityType with
    | .aggressiveTrader => base0 * (12 / 10 + b.riskTolerance * (3 / 10))
    | .conservativeBuilder => base0 * (8 / 10 + b.riskTolerance * (2 / 10))
    | .networkingElite => base0 * (11 / 10)
    | _ => base0
  let base2 : ℚ :=
    match b.currentBehavior with
    | .aggressive => base1 * (13 / 10)
    | .defensive => base1 * (7 / 10)
    | _ => base1
  let base3 : ℚ := base2 * (1 + (competitionLevel : ℚ) * (1 / 10))
  min (pyTrunc base3) (pyTrunc ((b.gold : ℚ) * (8 / 10)))

/-! ## Combat resolution (`services/dungeon_progression.py`, `_simulate_combat`) -/

/-- The adventurer stats read by `_simulate_combat`
(`adv.level * 10 + adv.strength + adv.dexterity`). -/
structure AdventurerStats where
  level : Int
  strength : Int
  dexterity : Int
  deriving DecidableEq, Repr

/-- `party_power = sum(adv.level * 10 + adv.strength + adv.dexterity)`. -/
def partyPower (advs : List AdventurerStats) : Int :=
  (advs.map fun a => a.level * 10 + a.strength + a.dexterity).sum

/-- `success_chance = min(0.95, max(0.05, party_power / (party_power + enemy_power)))`
with `enemy_power = difficulty * 10`, from `_simulate_combat`. -/
def successChance (advs : List AdventurerStats) (difficulty : Int) : ℚ :=
  let p : ℚ := (partyPower advs : ℚ)
  let e : ℚ := (difficulty : ℚ) * 10
  min (95 / 100) (max (5 / 100) (p / (p + e)))

/-- Outcome record of `_simulate_combat` (the deterministic fields; battle
duration and damage rolls are independent random draws not modelled here). -/
structure CombatOutcome where
  victory : Bool
  expGained : Int
  goldGained : Int
  deriving DecidableEq, Repr

/-- `DungeonRank` enum from `models/dungeon_system.py`. -/
inductive DungeonRank
  | E | D | C | B | A | S
  deriving DecidableEq, Repr

/-- The `base_difficulty` table of `generate_dungeon_rooms` in
`services/dungeon_bidding.py`. -/
def baseDifficulty : DungeonRank → Int
  | .E => 10 | .D => 20 | .C => 35 | .B => 50 | .A => 70 | .S => 90

/-- `room_difficulty = base_difficulty[rank] + room_num * 5` from
`generate_dungeon_rooms`: the combat difficulty of every generated room. -/
def generatedRoomDifficulty (rk : DungeonRank) (roomNum : Nat) : Int :=
  baseDifficulty rk + (roomNum : Int) * 5

/-- `_simulate_combat` with the random draw `random.random()` injected as
`roll`: victory iff `roll < success_chance`; on victory `exp = difficulty*5`,
`gold = difficulty*3`; on defeat `exp = difficulty*2` (partial effort),
`gold = 0`. -/
def simulateCombat (advs : List AdventurerStats) (difficulty : Int) (roll : ℚ) :
    CombatOutcome :=
  if roll < successChance advs difficulty then
    { victory := true, expGained := difficulty * 5, goldGained := difficulty * 3 }
  else
    { victory := false, expGained := difficulty * 2, goldGained := 0 }

/-! ## Bidding engine (`services/dungeon_bidding.py`, `process_bidding_results`)

The service reads the dungeon row, queries the PENDING contracts of the
dungeon `ORDER BY bid_amount DESC`, and walks them with a `contracts_awarded`
counter: while the counter is below `max_guild_contracts` the contract is
awarded (guild gold debited by the bid, status AWARDED, `awarded_at`,
`contract_value` and `access_expires_at` stamped, a PREPARING run inserted),
afterwards the contract is rejected.  Finally the dungeon is set ACTIVE with
`current_contracts` = the counter.

The `ORDER BY` clause has a single key, `bid_amount` descending: contracts
with equal bids are returned in table order (the scan order of the rows,
i.e. increasing primary key `id`); **no** tie-break on `bid_submitted_at`
exists in the code.  `sortByAmountDesc` therefore sorts stably (preserving
the input row order among equal amounts) on the single key. -/

/-- Stable insertion of a contract into a list sorted by `bid_amount`
descending: rows with strictly greater amount stay in front, the new row goes
before rows with equal or smaller amount that followed it in table order. -/
def insertByAmount (c : DungeonContract) : List DungeonContract → List DungeonContract
  | [] => [c]
  | d :: ds => if c.bidAmount < d.bidAmount then d :: insertByAmount c ds else c :: d :: ds

/-- `ORDER BY bid_amount DESC` over the pending rows in table order: a stable
sort on the single key `bid_amount`, descending. -/
def sortByAmountDesc : List DungeonContract → List DungeonContract
  | [] => []
  | c :: cs => insertByAmount c (sortByAmountDesc cs)

/-- The awarded version of a contract row: `status = AWARDED`, `awarded_at`
stamped with now, `contract_value = bid_amount`,
`access_expires_at = dungeon.dungeon_closes_at`. -/
def mkAwarded (now closesAt : Nat) (c : DungeonContract) : DungeonContract :=
  { c with status := .awarded, awardedAt := some now,
           contractValue := some c.bidAmount, accessExpiresAt := some closesAt }

/-- The rejected version of a contract row: only `status` changes. -/
def mkRejected (c : DungeonContract) : DungeonContract :=
  { c with status := .rejected }

/-- The initial `DungeonRun` inserted for an awarded contract: PREPARING, at
the entrance, column defaults everywhere else. -/
def mkRunRow (dungeonId : Nat) (c : DungeonContract) : DungeonRun :=
  { id := 0, dungeonId := dungeonId, guildId := c.guildId, contractId := c.id,
    currentRoom := 0, furthestRoomReached := 0, status := .preparing,
    totalLootGained := [], bossDefeated := false, failurePenaltyPaid := 0,
    completionBonusEarned := 0, lastActivity := 0, completedAt := none }

/-- Output of the award loop: the updated gold ledger, the processed contract
rows (in the order the loop visited them), the inserted runs, and the final
`contracts_awarded` counter. -/
structure AwardOut where
  gold : Nat → Int
  contracts : List DungeonContract
  runs : List DungeonRun
  count : Nat

/-- The `for bid in pending_bids` loop of `process_bidding_results`, with the
running `contracts_awarded` counter `cnt` and the gold ledger threaded
through: reject once the counter has reached `max_contracts`, otherwise debit
the guild and award. -/
def awardLoop (maxContracts closesAt now dungeonId : Nat) :
    Nat → (Nat → Int) → List DungeonContract → AwardOut
  | cnt, gold, [] => ⟨gold, [], [], cnt⟩
  | cnt, gold, bid :: rest =>
    if maxContracts ≤ cnt then
      let o := awardLoop maxContracts closesAt now dungeonId cnt gold rest
      ⟨o.gold, mkRejected bid :: o.contracts, o.runs, o.count⟩
    else
      let gold' := fun g => if g = bid.guildId then gold g - bid.bidAmount else gold g
      let o := awardLoop maxContracts closesAt now dungeonId (cnt + 1) gold' rest
      ⟨o.gold, mkAwarded now closesAt bid :: o.contracts,
        mkRunRow dungeonId bid :: o.runs, o.count⟩

/-- Result of a completed `process_bidding_results` call: the updated dungeon,
the processed (formerly PENDING) contract rows, the gold ledger and the
inserted runs.  Contract rows of other statuses are not selected by the
query and are unchanged. -/
structure BidCloseResult where
  dungeon : Dungeon
  contracts : List DungeonContract
  gold : Nat → Int
  runs : List DungeonRun

/-- `process_bidding_results` from `services/dungeon_bidding.py`.  `rows` is
the contract table of the dungeon in row order, `gold` the gold ledger
(guild id → gold).  Returns `none` when no PENDING bids exist (the code
returns the error `No bids received` and changes nothing); the function has
no check at all on the dungeon's current status. -/
def processBiddingResults (d : Dungeon) (rows : List DungeonContract)
    (gold : Nat → Int) (now : Nat) : Option BidCloseResult :=
  let pending := rows.filter fun c => c.status = .pending
  if pending.isEmpty then none
  else
    let o := awardLoop d.maxGuildContracts d.dungeonClosesAt now d.id 0 gold
      (sortByAmountDesc pending)
    some { dungeon := { d with status := .active, currentContracts := o.count },
           contracts := o.contracts, gold := o.gold, runs := o.runs }

/-- The processed contract rows of a `process_bidding_results` call (empty
when the call fails, in which case nothing is written). -/
def closedContracts (d : Dungeon) (rows : List DungeonContract)
    (gold : Nat → Int) (now : Nat) : List DungeonContract :=
  match processBiddingResults d rows gold now with
  | some r => r.contracts
  | none => []

/-- Total bid amount of the awarded contracts of guild `g` in a processed
contract list — the gold the close debits from `g`. -/
def awardedDebit (g : Nat) (cs : List DungeonContract) : Int :=
  ((cs.filter fun c => c.status = .awarded ∧ c.guildId = g).map fun c => c.bidAmount).sum

/-- Total bid amount of the rows of guild `g` in a raw (pending) row list. -/
def pendingDebit (g : Nat) (cs : List DungeonContract) : Int :=
  ((cs.filter fun c => c.guildId = g).map fun c => c.bidAmount).sum

theorem awardLoop_contracts (maxC closesAt now did : Nat) (l : List DungeonContract) :
    ∀ (cnt : Nat) (gold : Nat → Int),
      (awardLoop maxC closesAt now did cnt gold l).contracts =
        (l.take (maxC - cnt)).map (mkAwarded now closesAt) ++
        (l.drop (maxC - cnt)).map mkRejected := by
  induction l with
  | nil => intro cnt gold; simp [awardLoop]
  | cons b rest ih =>
    intro cnt gold
    by_cases h : maxC ≤ cnt
    · have hz : maxC - cnt = 0 := by omega
      simp [awardLoop, if_pos h, hz, ih, Nat.sub_eq_zero_of_le h]
    · have hpos : maxC - cnt = (maxC - (cnt + 1)) + 1 := by omega
      simp only [awardLoop, if_neg h, ih, hpos, List.take_succ_cons, List.drop_succ_cons,
        List.map_cons, List.cons_append]

theorem awardLoop_runs (maxC closesAt now did : Nat) (l : List DungeonContract) :
    ∀ (cnt : Nat) (gold : Nat → Int),
      (awardLoop maxC closesAt now did cnt gold l).runs =
        (l.take (maxC - cnt)).map (mkRunRow did) := by
  induction l with
  | nil => intro cnt gold; simp [awardLoop]
  | cons b rest ih =>
    intro cnt gold
    by_cases h : maxC ≤ cnt
    · have hz : maxC - cnt = 0 := by omega
      simp [awardLoop, if_pos h, hz, ih]
    · have hpos : maxC - cnt = (maxC - (cnt + 1)) + 1 := by omega
      simp only [awardLoop, if_neg h, ih, hpos, List.take_succ_cons, List.map_cons]

theorem awardLoop_count (maxC closesAt now did : Nat) (l : List DungeonContract) :
    ∀ (cnt : Nat) (gold : Nat → Int),
      (awardLoop maxC closesAt now did cnt gold l).count =
        cnt + min (maxC - cnt) l.length := by
  induction l with
  | nil => intro cnt gold; simp [awardLoop]
  | cons b rest ih =>
    intro cnt gold
    by_cases h : maxC ≤ cnt
    · have hz : maxC - cnt = 0 := by omega
      simp [awardLoop, if_pos h, hz, ih]
    · simp only [awardLoop, if_neg h, ih, List.length_cons]
      omega

theorem awardLoop_gold (maxC closesAt now did : Nat) (l : List DungeonContract) :
    ∀ (cnt : Nat) (gold : Nat → Int) (g : Nat),
      (awardLoop maxC closesAt now did cnt gold l).gold g =
        gold g - pendingDebit g (l.take (maxC - cnt)) := by
  induction l with
  | nil => intro cnt gold g; simp [awardLoop, pendingDebit]
  | cons b rest ih =>
    intro cnt gold g
    by_cases h : maxC ≤ cnt
    · have hz : maxC - cnt = 0 := by omega
      simp [awardLoop, if_pos h, hz, ih, pendingDebit]
    · have hpos : maxC - cnt = (maxC - (cnt + 1)) + 1 := by omega
      simp only [awardLoop, if_neg h, ih, hpos, List.take_succ_cons]
      by_cases hg : g = b.guildId
      · rw [if_pos hg]
        have hd : pendingDebit g (b :: List.take (maxC - (cnt + 1)) rest) =
            b.bidAmount + pendingDebit g (List.take (maxC - (cnt + 1)) rest) := by
          simp [pendingDebit, List.filter_cons, hg]
        rw [hd]
        ring
      · rw [if_neg hg]
        have hgg : ¬b.guildId = g := fun hh => hg hh.symm
        have hd : pendingDebit g (b :: List.take (maxC - (cnt + 1)) rest) =
            pendingDebit g (List.take (maxC - (cnt + 1)) rest) := by
          simp [pendingDebit, List.filter_cons, hgg]
        rw [hd]

theorem filter_awarded_of_processed (now closesAt : Nat) (t dr : List DungeonContract) :
    ((t.map (mkAwarded now closesAt) ++ dr.map mkRejected).filter
      fun c => c.status = .awarded) = t.map (mkAwarded now closesAt) := by
  induction t with
  | nil =>
    induction dr with
    | nil => simp
    | cons b r ih =>
      simp only [List.map_nil, List.nil_append, List.map_cons, List.filter_cons] at ih ⊢
      simp only [mkRejected]
      simpa using ih
  | cons b r ih => simpa [mkAwarded, List.filter_cons] using ih

theorem awardedDebit_of_processed (now closesAt : Nat) (g : Nat)
    (t dr : List DungeonContract) :
    awardedDebit g (t.map (mkAwarded now closesAt) ++ dr.map mkRejected) =
      pendingDebit g t := by
  induction t with
  | nil =>
    induction dr with
    | nil => simp [awardedDebit, pendingDebit]
    | cons b r ih => simpa [awardedDebit, mkRejected, List.filter_cons] using ih
  | cons b r ih =>
    simp only [awardedDebit, pendingDebit] at ih
    by_cases hg : b.guildId = g
    · simp only [awardedDebit, pendingDebit, List.map_cons, List.cons_append,
        List.filter_cons, mkAwarded, hg, decide_eq_true_eq, if_true]
      simp only [and_self, if_true, List.map_cons, List.sum_cons]
      rw [ih]
    · simp only [awardedDebit, pendingDebit, List.map_cons, List.cons_append,
        List.filter_cons, mkAwarded]
      simp only [decide_eq_true_eq]
      rw [if_neg (by simp [hg]), if_neg (by simp [hg])]
      exact ih

/-- C2: a completed `close_bidding` call awards at most `max_guild_contracts`
contracts; the gold debited from each guild is exactly the sum of its awarded
bid amounts; every awarded contract is stamped
(`awarded_at`, `contract_value`, `access_expires_at = dungeon_closes_at`) and
gets a PREPARING run; every processed contract ends AWARDED or REJECTED (so
the remaining PENDING ones end REJECTED, and, by the gold equation, without
any debit); the dungeon becomes ACTIVE. -/
theorem processBiddingResults_close_invariants (d : Dungeon) (rows : List DungeonContract)
    (gold : Nat → Int) (now : Nat)
    (hpending : (rows.filter fun c => c.status = .pending) ≠ []) :
    ∃ res, processBiddingResults d rows gold now = some res ∧
      (res.contracts.filter fun c => c.status = .awarded).length ≤ d.maxGuildContracts ∧
      (∀ g, res.gold g = gold g - awardedDebit g res.contracts) ∧
      (∀ c ∈ res.contracts, c.status = .awarded →
        c.accessExpiresAt = some d.dungeonClosesAt ∧ c.awardedAt = some now ∧
        c.contractValue = some c.bidAmount ∧
        ∃ r ∈ res.runs, r.contractId = c.id ∧ r.guildId = c.guildId ∧
          r.status = .preparing) ∧
      (∀ c ∈ res.contracts, c.status = .awarded ∨ c.status = .rejected) ∧
      res.dungeon.status = .active := by
  unfold processBiddingResults
  rw [if_neg (by simpa [List.isEmpty_iff] using hpending)]
  set s := sortByAmountDesc (rows.filter fun c => c.status = .pending) with hs
  refine ⟨_, rfl, ?_, ?_, ?_, ?_, rfl⟩ <;> dsimp only
  · rw [awardLoop_contracts, filter_awarded_of_processed]
    simp only [Nat.sub_zero, List.length_map, List.length_take]
    exact min_le_left _ _
  · intro g
    rw [awardLoop_gold, awardLoop_contracts, awardedDebit_of_processed]
  · intro c hc hawarded
    rw [awardLoop_contracts] at hc
    simp only [Nat.sub_zero] at hc
    rcases List.mem_append.mp hc with hmem | hmem
    · rcases List.mem_map.mp hmem with ⟨b, hb, rfl⟩
      refine ⟨rfl, rfl, rfl, mkRunRow d.id b, ?_, rfl, rfl, rfl⟩
      rw [awardLoop_runs]
      simp only [Nat.sub_zero]
      exact List.mem_map.mpr ⟨b, hb, rfl⟩
    · rcases List.mem_map.mp hmem with ⟨b, _, rfl⟩
      exact absurd hawarded (by simp [mkRejected])
  · intro c hc
    rw [awardLoop_contracts] at hc
    rcases List.mem_append.mp hc with hmem | hmem
    · rcases List.mem_map.mp hmem with ⟨b, _, rfl⟩
      exact Or.inl rfl
    · rcases List.mem_map.mp hmem with ⟨b, _, rfl⟩
      exact Or.inr rfl

theorem mem_insertByAmount (c x : DungeonContract) (l : List DungeonContract) :
    x ∈ insertByAmount c l ↔ x = c ∨ x ∈ l := by
  induction l with
  | nil => simp [insertByAmount]
  | cons d ds ih =>
    by_cases h : c.bidAmount < d.bidAmount
    · simp only [insertByAmount, if_pos h, List.mem_cons, ih]
      tauto
    · simp only [insertByAmount, if_neg h, List.mem_cons]

theorem mem_sortByAmountDesc (x : DungeonContract) (l : List DungeonContract) :
    x ∈ sortByAmountDesc l ↔ x ∈ l := by
  induction l with
  | nil => simp [sortByAmountDesc]
  | cons c cs ih => simp [sortByAmountDesc, mem_insertByAmount, ih]

/-- The order actually realised by the close: amounts descending, ties in row
(primary-key) order. -/
def bidOrder (a b : DungeonContract) : Prop :=
  b.bidAmount ≤ a.bidAmount ∧ (a.bidAmount = b.bidAmount → a.id < b.id)

theorem pairwise_insertByAmount (c : DungeonContract) (l : List DungeonContract)
    (h1 : l.Pairwise bidOrder) (h2 : ∀ e ∈ l, c.id < e.id) :
    (insertByAmount c l).Pairwise bidOrder := by
  induction l with
  | nil => simp [insertByAmount, bidOrder]
  | cons d ds ih =>
    rcases List.pairwise_cons.mp h1 with ⟨hd, hds⟩
    by_cases h : c.bidAmount < d.bidAmount
    · simp only [insertByAmount, if_pos h]
      refine List.pairwise_cons.mpr ⟨?_, ih hds fun e he => h2 e (List.mem_cons_of_mem _ he)⟩
      intro x hx
      rcases (mem_insertByAmount c x ds).mp hx with rfl | hx
      · exact ⟨le_of_lt h, fun he => absurd he (by exact fun hh => absurd hh.symm (ne_of_lt h))⟩
      · exact hd x hx
    · simp only [insertByAmount, if_neg h]
      refine List.pairwise_cons.mpr ⟨?_, h1⟩
      intro x hx
      rcases List.mem_cons.mp hx with rfl | hx
      · exact ⟨not_lt.mp h, fun _ => h2 x (List.mem_cons_self _ _)⟩
      · exact ⟨le_trans (hd x hx).1 (not_lt.mp h),
          fun _ => h2 x (List.mem_cons_of_mem _ hx)⟩

theorem pairwise_sortByAmountDesc (l : List DungeonContract)
    (h : l.Pairwise fun a b => a.id < b.id) :
    (sortByAmountDesc l).Pairwise bidOrder := by
  induction l with
  | nil => simp [sortByAmountDesc]
  | cons c cs ih =>
    rcases List.pairwise_cons.mp h with ⟨hc, hcs⟩
    simp only [sortByAmountDesc]
    exact pairwise_insertByAmount c _ (ih hcs)
      fun e he => hc e ((mem_sortByAmountDesc e cs).mp he)

/-- C1 as stated by the spec: among the contracts processed by a completed
`close_bidding` call, whenever two bids have equal amounts, the one with the
earlier `bid_submitted_at` is preferred — if the later-submitted one was
awarded, the earlier-submitted one must have been awarded too. -/
def biddingTieBreakClaim : Prop :=
  ∀ (d : Dungeon) (rows : List DungeonContract) (gold : Nat → Int) (now : Nat)
    (c1 c2 : DungeonContract),
    c1 ∈ closedContracts d rows gold now → c2 ∈ closedContracts d rows gold now →
    c1.bidAmount = c2.bidAmount → c1.bidSubmittedAt < c2.bidSubmittedAt →
    c2.status = .awarded → c1.status = .awarded

/-- Fixture dungeon for the bidding scenarios: one contract slot. -/
def witnessDungeon : Dungeon :=
  { id := 7, status := .bidding, totalRooms := 5, bossRoomNumber := 5,
    maxGuildContracts := 1, currentContracts := 0, completionBonus := 1000,
    failurePenalty := 500, biddingClosesAt := 20, dungeonClosesAt := 100,
    isCompleted := false, completedByGuildId := none }

/-- Fixture contract row: guild 3 created its bid first (row id 1) and later
re-submitted, so its `bid_submitted_at` (5) is the later one while its row
position is the earlier one — exactly what `create_dungeon_bid` produces when
an existing PENDING bid is updated in place. -/
def rowGuild3 : DungeonContract :=
  { id := 1, dungeonId := 7, guildId := 3, bidAmount := 900, bidSubmittedAt := 5,
    status := .pending, awardedAt := none, contractValue := none, accessExpiresAt := none }

/-- Fixture contract row: guild 2 bid the same 900 at the earlier time 3, but
its row (id 2) was created after guild 3's row. -/
def rowGuild2 : DungeonContract :=
  { id := 2, dungeonId := 7, guildId := 2, bidAmount := 900, bidSubmittedAt := 3,
    status := .pending, awardedAt := none, contractValue := none, accessExpiresAt := none }

/-- Fixture contract row: guild 1's lower bid of 800. -/
def rowGuild1 : DungeonContract :=
  { id := 3, dungeonId := 7, guildId := 1, bidAmount := 800, bidSubmittedAt := 1,
    status := .pending, awardedAt := none, contractValue := none, accessExpiresAt := none }

/-- The contract table of the fixture dungeon, in row order. -/
def witnessRows : List DungeonContract := [rowGuild3, rowGuild2, rowGuild1]

/-- Fixture gold ledger: every guild holds 1000 gold. -/
def witnessGold : Nat → Int := fun _ => 1000

/-- C1 counterexample: the code orders pending bids by `bid_amount` only
(`.order_by(desc(DungeonContract.bid_amount))`), so with one slot and two
equal 900 bids the row-order-first contract of guild 3 wins even though guild
2 submitted at the earlier time 3 < 5 — the earlier-submitted bid is
REJECTED, refuting the claimed timestamp tie-break. -/
theorem biddingTieBreak_counterexample : ¬ biddingTieBreakClaim := by
  intro h
  have happ := h witnessDungeon witnessRows witnessGold 10
    (mkRejected rowGuild2) (mkAwarded 10 100 rowGuild3)
    (by decide) (by decide) (by decide) (by decide) (by decide)
  exact absurd happ (by decide)

/-- C1 amended: a completed `close_bidding` call processes the PENDING
contracts in `bid_amount`-descending order with ties in contract-table row
order (increasing primary key `id`) — not by submission timestamp — and the
awarded contracts form a prefix of that order: between any two processed
contracts, the later one has a smaller-or-equal amount, equal amounts appear
in row order, and if the later one was awarded so was the earlier one. -/
theorem closedContracts_order (d : Dungeon) (rows : List DungeonContract)
    (gold : Nat → Int) (now : Nat)
    (hrows : rows.Pairwise fun a b => a.id < b.id) :
    (closedContracts d rows gold now).Pairwise fun a b =>
      b.bidAmount ≤ a.bidAmount ∧ (a.bidAmount = b.bidAmount → a.id < b.id) ∧
      (b.status = .awarded → a.status = .awarded) := by
  unfold closedContracts processBiddingResults
  by_cases hemp : (rows.filter fun c => c.status = .pending).isEmpty
  · rw [if_pos hemp]
    exact List.Pairwise.nil
  · rw [if_neg hemp]
    dsimp only
    rw [awardLoop_contracts]
    simp only [Nat.sub_zero]
    have hsort : (sortByAmountDesc (rows.filter fun c => c.status = .pending)).Pairwise
        bidOrder :=
      pairwise_sortByAmountDesc _ (hrows.filter _)
    set s := sortByAmountDesc (rows.filter fun c => c.status = .pending) with hs
    rw [← List.take_append_drop d.maxGuildContracts s] at hsort
    rcases List.pairwise_append.mp hsort with ⟨htake, hdrop, hcross⟩
    refine List.pairwise_append.mpr ⟨?_, ?_, ?_⟩
    · rw [List.pairwise_map]
      exact htake.imp fun hab => ⟨hab.1, fun he => hab.2 he, fun _ => rfl⟩
    · rw [List.pairwise_map]
      exact hdrop.imp fun hab =>
        ⟨hab.1, fun he => hab.2 he, fun habs => absurd habs (by simp [mkRejected])⟩
    · intro x hx y hy
      rcases List.mem_map.mp hx with ⟨a, ha, rfl⟩
      rcases List.mem_map.mp hy with ⟨b, hb, rfl⟩
      have hab := hcross a ha b hb
      exact ⟨hab.1, fun he => hab.2 he, fun habs => absurd habs (by simp [mkRejected])⟩

/-- Witness for the amended C1 at the fixture table: its rows are in
primary-key order, and the processed list satisfies the
amount-descending/row-stable/awarded-prefix ordering. -/
theorem closedContracts_order_witness :
    witnessRows.Pairwise (fun a b => a.id < b.id) ∧
    (closedContracts witnessDungeon witnessRows witnessGold 10).Pairwise fun a b =>
      b.bidAmount ≤ a.bidAmount ∧ (a.bidAmount = b.bidAmount → a.id < b.id) ∧
      (b.status = .awarded → a.status = .awarded) :=
  ⟨by decide, closedContracts_order witnessDungeon witnessRows witnessGold 10 (by decide)⟩

/-- Witness for C2 at the fixture table: PENDING bids exist, the close
completes, and at most one (the dungeon's `max_guild_contracts`) contract is
awarded. -/
theorem processBiddingResults_close_invariants_witness :
    ((witnessRows.filter fun c => c.status = .pending) ≠ []) ∧
    ∃ res, processBiddingResults witnessDungeon witnessRows witnessGold 10 = some res ∧
      (res.contracts.filter fun c => c.status = .awarded).length ≤
        witnessDungeon.maxGuildContracts ∧
      (∀ g, res.gold g = witnessGold g - awardedDebit g res.contracts) := by
  obtain ⟨res, h1, h2, h3, -⟩ :=
    processBiddingResults_close_invariants witnessDungeon witnessRows witnessGold 10
      (by decide)
  exact ⟨by decide, res, h1, h2, h3⟩

/-! ## Time-based processor (`services/dungeon_time_manager.py`)

The collapse tick (`check_dungeon_collapses` + `_collapse_dungeon`) and the
completion sweep (`_check_completion_conditions`) are embedded per dungeon:
the state below carries one dungeon together with the runs, gold ledger and
share-price ledger the tick reads and writes; the service's outer loop maps
this over every selected dungeon independently. -/

/-- Per-dungeon slice of the persistent state seen by the time manager. -/
structure WorldState where
  dungeon : Dungeon
  runs : List DungeonRun
  gold : Nat → Int
  share : Nat → ℚ

/-- `penalty_impact = min(0.15, dungeon.failure_penalty / 10000)` from
`_collapse_dungeon`. -/
def penaltyImpact (d : Dungeon) : ℚ := min (15 / 100) ((d.failurePenalty : ℚ) / 10000)

/-- `bonus_impact = min(0.25, dungeon.completion_bonus / 5000)` from
`_check_completion_conditions`. -/
def bonusImpact (d : Dungeon) : ℚ := min (25 / 100) ((d.completionBonus : ℚ) / 5000)

/-- A run penalised by `_collapse_dungeon`: selected by the query (same
dungeon, status ACTIVE or SUSPENDED) and `boss_defeated` false. -/
def collapsePenalized (d : Dungeon) (r : DungeonRun) : Prop :=
  r.dungeonId = d.id ∧ (r.status = .active ∨ r.status = .suspended) ∧
    r.bossDefeated = false

instance (d : Dungeon) (r : DungeonRun) : Decidable (collapsePenalized d r) := by
  unfold collapsePenalized
  exact inferInstance

/-- The per-run effect of `_collapse_dungeon`: a penalised run is failed and
charged, every other run is untouched. -/
def collapseRun (d : Dungeon) (r : DungeonRun) : DungeonRun :=
  if collapsePenalized d r then
    { r with status := .failed, failurePenaltyPaid := d.failurePenalty }
  else r

/-- Number of runs of guild `g` penalised by the collapse of `d`. -/
def penalizedCount (d : Dungeon) (g : Nat) (rs : List DungeonRun) : Nat :=
  (rs.filter fun r => collapsePenalized d r ∧ r.guildId = g).length

/-- The `for run in active_runs` loop of `_collapse_dungeon`: fail each
penalised run, debit `failure_penalty` from its guild and multiply the
guild's share price by `1 - penalty_impact`.  `d` is the (already collapsed)
dungeon row. -/
def collapseLoop (d : Dungeon) : List DungeonRun → (Nat → Int) → (Nat → ℚ) → WorldState
  | [], gold, share => ⟨d, [], gold, share⟩
  | r :: rs, gold, share =>
    if collapsePenalized d r then
      let gold' := fun g => if g = r.guildId then gold g - d.failurePenalty else gold g
      let share' := fun g =>
        if g = r.guildId then share g * (1 - penaltyImpact d) else share g
      let o := collapseLoop d rs gold' share'
      ⟨o.dungeon,
        { r with status := .failed, failurePenaltyPaid := d.failurePenalty } :: o.runs,
        o.gold, o.share⟩
    else
      let o := collapseLoop d rs gold share
      ⟨o.dungeon, r :: o.runs, o.gold, o.share⟩

/-- `_collapse_dungeon`: set the dungeon COLLAPSED, then penalise its
ACTIVE/SUSPENDED runs whose boss was not defeated. -/
def collapseDungeon (st : WorldState) : WorldState :=
  collapseLoop { st.dungeon with status := .collapsed } st.runs st.gold st.share

/-- One pass of `check_dungeon_collapses` over this dungeon: the query selects
it only when `dungeon_closes_at <= now` and its status is ACTIVE. -/
def checkDungeonCollapses (now : Nat) (st : WorldState) : WorldState :=
  if st.dungeon.dungeonClosesAt ≤ now ∧ st.dungeon.status = .active then
    collapseDungeon st
  else st

/-- The `for run in completed_runs` loop of `_check_completion_conditions`:
each ACTIVE run with `boss_defeated` is completed, its guild is credited the
completion bonus and its share price boosted; the first such run (when
`is_completed` is still false) also marks the dungeon COMPLETED.  Note the
query does **not** filter on the dungeon's status. -/
def completionSweepLoop (now : Nat) :
    List DungeonRun → Dungeon → (Nat → Int) → (Nat → ℚ) → WorldState
  | [], d, gold, share => ⟨d, [], gold, share⟩
  | r :: rs, d, gold, share =>
    if r.dungeonId = d.id ∧ r.bossDefeated = true ∧ r.status = .active then
      let r' := { r with status := .completed, completedAt := some now,
                         completionBonusEarned := d.completionBonus }
      let gold' := fun g => if g = r.guildId then gold g + d.completionBonus else gold g
      let share' := fun g =>
        if g = r.guildId then share g * (1 + bonusImpact d) else share g
      let d' := if d.isCompleted = false then
          { d with isCompleted := true, completedByGuildId := some r.guildId,
                   status := DungeonStatus.completed }
        else d
      let o := completionSweepLoop now rs d' gold' share'
      ⟨o.dungeon, r' :: o.runs, o.gold, o.share⟩
    else
      let o := completionSweepLoop now rs d gold share
      ⟨o.dungeon, r :: o.runs, o.gold, o.share⟩

/-- One pass of `_check_completion_conditions` over this dungeon's runs. -/
def completionSweep (now : Nat) (st : WorldState) : WorldState :=
  completionSweepLoop now st.runs st.dungeon st.gold st.share

theorem checkDungeonCollapses_not_active (st : WorldState) (now : Nat)
    (h : st.dungeon.status ≠ .active) : checkDungeonCollapses now st = st := by
  unfold checkDungeonCollapses
  rw [if_neg fun hc => h hc.2]

theorem completionSweepLoop_status (now : Nat) (rs : List DungeonRun) :
    ∀ (d : Dungeon) (gold : Nat → Int) (share : Nat → ℚ),
      ((completionSweepLoop now rs d gold share).dungeon.status = d.status ∨
        (completionSweepLoop now rs d gold share).dungeon.status = .completed) ∧
      (d.status = .completed →
        (completionSweepLoop now rs d gold share).dungeon.status = .completed) := by
  induction rs with
  | nil => intro d gold share; exact ⟨Or.inl rfl, fun h => h⟩
  | cons r rs ih =>
    intro d gold share
    by_cases hsel : r.dungeonId = d.id ∧ r.bossDefeated = true ∧ r.status = .active
    · simp only [completionSweepLoop, if_pos hsel]
      by_cases hic : d.isCompleted = false
      · rw [if_pos hic]
        rcases ih { d with isCompleted := true, completedByGuildId := some r.guildId,
                           status := DungeonStatus.completed }
            (fun g => if g = r.guildId then gold g + d.completionBonus else gold g)
            (fun g => if g = r.guildId then share g * (1 + bonusImpact d) else share g) with
          ⟨_, h2⟩
        have hc := h2 rfl
        exact ⟨Or.inr hc, fun _ => hc⟩
      · rw [if_neg hic]
        exact ih d _ _
    · simp only [completionSweepLoop, if_neg hsel]
      exact ih d _ _

theorem collapseLoop_dungeon (d : Dungeon) (rs : List DungeonRun) :
    ∀ (gold : Nat → Int) (share : Nat → ℚ),
      (collapseLoop d rs gold share).dungeon = d := by
  induction rs with
  | nil => intro gold share; rfl
  | cons r rs ih =>
    intro gold share
    by_cases hsel : collapsePenalized d r
    · simp only [collapseLoop, if_pos hsel]
      exact ih _ _
    · simp only [collapseLoop, if_neg hsel]
      exact ih _ _

theorem collapseLoop_runs (d : Dungeon) (rs : List DungeonRun) :
    ∀ (gold : Nat → Int) (share : Nat → ℚ),
      (collapseLoop d rs gold share).runs = rs.map (collapseRun d) := by
  induction rs with
  | nil => intro gold share; rfl
  | cons r rs ih =>
    intro gold share
    by_cases hsel : collapsePenalized d r
    · simp only [collapseLoop, if_pos hsel, List.map_cons, collapseRun]
      rw [ih]
    · simp only [collapseLoop, if_neg hsel, List.map_cons, collapseRun]
      rw [ih]

theorem collapseLoop_gold (d : Dungeon) (rs : List DungeonRun) :
    ∀ (gold : Nat → Int) (share : Nat → ℚ) (g : Nat),
      (collapseLoop d rs gold share).gold g =
        gold g - d.failurePenalty * (penalizedCount d g rs : Int) := by
  induction rs with
  | nil => intro gold share g; simp [collapseLoop, penalizedCount]
  | cons r rs ih =>
    intro gold share g
    by_cases hsel : collapsePenalized d r
    · simp only [collapseLoop, if_pos hsel]
      rw [ih]
      by_cases hg : g = r.guildId
      · rw [if_pos hg]
        have hcount : penalizedCount d g (r :: rs) = penalizedCount d g rs + 1 := by
          simp [penalizedCount, List.filter_cons, hsel, hg]
        rw [hcount]
        push_cast
        ring
      · rw [if_neg hg]
        have hcount : penalizedCount d g (r :: rs) = penalizedCount d g rs := by
          have : ¬(collapsePenalized d r ∧ r.guildId = g) := fun hh => hg hh.2.symm
          simp [penalizedCount, List.filter_cons, this]
        rw [hcount]
    · simp only [collapseLoop, if_neg hsel]
      rw [ih]
      have hcount : penalizedCount d g (r :: rs) = penalizedCount d g rs := by
        have : ¬(collapsePenalized d r ∧ r.guildId = g) := fun hh => hsel hh.1
        simp [penalizedCount, List.filter_cons, this]
      rw [hcount]

theorem collapseLoop_share (d : Dungeon) (rs : List DungeonRun) :
    ∀ (gold : Nat → Int) (share : Nat → ℚ) (g : Nat),
      (collapseLoop d rs gold share).share g =
        share g * (1 - penaltyImpact d) ^ penalizedCount d g rs := by
  induction rs with
  | nil => intro gold share g; simp [collapseLoop, penalizedCount]
  | cons r rs ih =>
    intro gold share g
    by_cases hsel : collapsePenalized d r
    · simp only [collapseLoop, if_pos hsel]
      rw [ih]
      by_cases hg : g = r.guildId
      · rw [if_pos hg]
        have hcount : penalizedCount d g (r :: rs) = penalizedCount d g rs + 1 := by
          simp [penalizedCount, List.filter_cons, hsel, hg]
        rw [hcount, pow_succ]
        ring
      · rw [if_neg hg]
        have hcount : penalizedCount d g (r :: rs) = penalizedCount d g rs := by
          have : ¬(collapsePenalized d r ∧ r.guildId = g) := fun hh => hg hh.2.symm
          simp [penalizedCount, List.filter_cons, this]
        rw [hcount]
    · simp only [collapseLoop, if_neg hsel]
      rw [ih]
      have hcount : penalizedCount d g (r :: rs) = penalizedCount d g rs := by
        have : ¬(collapsePenalized d r ∧ r.guildId = g) := fun hh => hsel hh.1
        simp [penalizedCount, List.filter_cons, this]
      rw [hcount]

/-- C3 as stated by the spec: a COLLAPSED or COMPLETED dungeon is terminal —
neither the collapse tick, nor the completion sweep, nor a completed
`close_bidding` call ever changes its status. -/
def terminalStatusClaim : Prop :=
  (∀ (st : WorldState) (now : Nat),
    st.dungeon.status = .collapsed ∨ st.dungeon.status = .completed →
    (checkDungeonCollapses now st).dungeon.status = st.dungeon.status ∧
    (completionSweep now st).dungeon.status = st.dungeon.status) ∧
  (∀ (d : Dungeon) (rows : List DungeonContract) (gold : Nat → Int) (now : Nat)
    (res : BidCloseResult),
    d.status = .collapsed ∨ d.status = .completed →
    processBiddingResults d rows gold now = some res →
    res.dungeon.status = d.status)

/-- Fixture for C3: a dungeon that collapsed (`is_completed` still false)
while one of its runs had already defeated the boss and was still ACTIVE —
the run state `check_dungeon_collapses` leaves behind when the deadline
passes between the boss kill and the completion sweep. -/
def c3Dungeon : Dungeon :=
  { id := 7, status := .collapsed, totalRooms := 5, bossRoomNumber := 5,
    maxGuildContracts := 1, currentContracts := 1, completionBonus := 1000,
    failurePenalty := 500, biddingClosesAt := 20, dungeonClosesAt := 40,
    isCompleted := false, completedByGuildId := none }

/-- Fixture run for C3: ACTIVE with `boss_defeated = true`. -/
def c3Run : DungeonRun :=
  { id := 4, dungeonId := 7, guildId := 2, contractId := 9, currentRoom := 5,
    furthestRoomReached := 5, status := .active, totalLootGained := [],
    bossDefeated := true, failurePenaltyPaid := 0, completionBonusEarned := 0,
    lastActivity := 0, completedAt := none }

/-- Fixture state for C3. -/
def c3State : WorldState := ⟨c3Dungeon, [c3Run], fun _ => 1000, fun _ => 100⟩

/-- C3 counterexample: `_check_completion_conditions` selects boss-defeated
ACTIVE runs without filtering on the dungeon's status, so it moves the
COLLAPSED fixture dungeon to COMPLETED — COLLAPSED is not terminal. -/
theorem terminalStatus_counterexample : ¬ terminalStatusClaim := by
  intro h
  have h2 := (h.1 c3State 50 (Or.inl rfl)).2
  have h3 : (completionSweep 50 c3State).dungeon.status = DungeonStatus.completed := rfl
  rw [h3] at h2
  exact absurd h2 (by decide)

/-- C3 amended: the collapse tick never touches a dungeon that is not ACTIVE
(so COLLAPSED and COMPLETED are terminal for it); the completion sweep never
moves a dungeon's status anywhere except to COMPLETED — in particular a
COMPLETED dungeon stays COMPLETED, but a COLLAPSED dungeon with a
boss-defeated ACTIVE run can still become COMPLETED; and `close_bidding`
changes nothing (it fails) when the dungeon has no PENDING contracts, which
is the only way it leaves a COLLAPSED or COMPLETED status alone. -/
theorem terminalStatus_amended :
    (∀ (st : WorldState) (now : Nat), st.dungeon.status ≠ .active →
      checkDungeonCollapses now st = st) ∧
    (∀ (st : WorldState) (now : Nat), st.dungeon.status = .completed →
      (completionSweep now st).dungeon.status = .completed) ∧
    (∀ (st : WorldState) (now : Nat),
      (completionSweep now st).dungeon.status = st.dungeon.status ∨
      (completionSweep now st).dungeon.status = .completed) ∧
    (∀ (d : Dungeon) (rows : List DungeonContract) (gold : Nat → Int) (now : Nat),
      (rows.filter fun c => c.status = .pending) = [] →
      processBiddingResults d rows gold now = none) := by
  refine ⟨?_, ?_, ?_, ?_⟩
  · intro st now hne
    exact checkDungeonCollapses_not_active st now hne
  · intro st now hc
    exact (completionSweepLoop_status now st.runs st.dungeon st.gold st.share).2 hc
  · intro st now
    exact (completionSweepLoop_status now st.runs st.dungeon st.gold st.share).1
  · intro d rows gold now hemp
    unfold processBiddingResults
    rw [if_pos (by simp [hemp])]

/-- Witness for the amended C3: the collapse tick leaves the collapsed
fixture state untouched, and closing bidding on a dungeon with no pending
contracts fails without a write. -/
theorem terminalStatus_amended_witness :
    checkDungeonCollapses 50 c3State = c3State ∧
    processBiddingResults witnessDungeon [] witnessGold 5 = none :=
  ⟨terminalStatus_amended.1 c3State 50 (by decide),
   terminalStatus_amended.2.2.2 witnessDungeon [] witnessGold 5 (by decide)⟩

/-- C6: on an ACTIVE dungeon whose `dungeon_closes_at` has passed, the
collapse tick sets the dungeon COLLAPSED; every ACTIVE/SUSPENDED run with
`boss_defeated = false` becomes FAILED with `failure_penalty_paid` stamped;
every run the query does not select (in particular every already-FAILED run)
is untouched; each guild is debited exactly `failure_penalty` per penalised
run; each penalised run multiplies its guild's share price by
`1 - penalty_impact`, a factor that is never below 0.85; and a second
collapse tick is a no-op on the result. -/
theorem collapsePenalized_setStatus (d : Dungeon) (s : DungeonStatus) (r : DungeonRun) :
    collapsePenalized { d with status := s } r ↔ collapsePenalized d r := Iff.rfl

theorem penalizedCount_setStatus (d : Dungeon) (s : DungeonStatus) (g : Nat)
    (rs : List DungeonRun) :
    penalizedCount { d with status := s } g rs = penalizedCount d g rs := rfl

theorem penaltyImpact_setStatus (d : Dungeon) (s : DungeonStatus) :
    penaltyImpact { d with status := s } = penaltyImpact d := rfl

theorem checkDungeonCollapses_spec (st : WorldState) (now : Nat)
    (hstat : st.dungeon.status = .active) (hexp : st.dungeon.dungeonClosesAt ≤ now) :
    ((checkDungeonCollapses now st).dungeon.status = .collapsed) ∧
    (∀ r ∈ st.runs, collapsePenalized st.dungeon r →
      { r with status := RunStatus.failed,
               failurePenaltyPaid := st.dungeon.failurePenalty } ∈
        (checkDungeonCollapses now st).runs) ∧
    (∀ r ∈ st.runs, ¬collapsePenalized st.dungeon r →
      r ∈ (checkDungeonCollapses now st).runs) ∧
    (∀ g, (checkDungeonCollapses now st).gold g =
      st.gold g - st.dungeon.failurePenalty *
        (penalizedCount st.dungeon g st.runs : Int)) ∧
    (∀ g, (checkDungeonCollapses now st).share g =
      st.share g * (1 - penaltyImpact st.dungeon) ^ penalizedCount st.dungeon g st.runs) ∧
    ((85 : ℚ) / 100 ≤ 1 - penaltyImpact st.dungeon) ∧
    (∀ later, checkDungeonCollapses later (checkDungeonCollapses now st) =
      checkDungeonCollapses now st) := by
  have hcond : st.dungeon.dungeonClosesAt ≤ now ∧ st.dungeon.status = .active :=
    ⟨hexp, hstat⟩
  have hrw : checkDungeonCollapses now st =
      collapseLoop { st.dungeon with status := .collapsed } st.runs st.gold st.share := by
    unfold checkDungeonCollapses collapseDungeon
    rw [if_pos hcond]
  refine ⟨?_, ?_, ?_, ?_, ?_, ?_, ?_⟩
  · rw [hrw, collapseLoop_dungeon]
  · intro r hr hpen
    rw [hrw, collapseLoop_runs]
    refine List.mem_map.mpr ⟨r, hr, ?_⟩
    unfold collapseRun
    rw [if_pos ((collapsePenalized_setStatus st.dungeon .collapsed r).mpr hpen)]
  · intro r hr hpen
    rw [hrw, collapseLoop_runs]
    refine List.mem_map.mpr ⟨r, hr, ?_⟩
    unfold collapseRun
    rw [if_neg fun hc => hpen ((collapsePenalized_setStatus st.dungeon .collapsed r).mp hc)]
  · intro g
    rw [hrw, collapseLoop_gold, penalizedCount_setStatus]
  · intro g
    rw [hrw, collapseLoop_share, penalizedCount_setStatus, penaltyImpact_setStatus]
  · unfold penaltyImpact
    have : min ((15 : ℚ) / 100) ((st.dungeon.failurePenalty : ℚ) / 10000) ≤ 15 / 100 :=
      min_le_left _ _
    linarith
  · intro later
    apply checkDungeonCollapses_not_active
    rw [hrw, collapseLoop_dungeon]
    simp

/-- Fixture dungeon for C6: ACTIVE with its closing deadline in the past. -/
def c6Dungeon : Dungeon :=
  { id := 8, status := .active, totalRooms := 5, bossRoomNumber := 5,
    maxGuildContracts := 2, currentContracts := 2, completionBonus := 1000,
    failurePenalty := 500, biddingClosesAt := 20, dungeonClosesAt := 40,
    isCompleted := false, completedByGuildId := none }

/-- Fixture run for C6: ACTIVE, boss not defeated — to be failed and charged. -/
def c6RunActive : DungeonRun :=
  { id := 11, dungeonId := 8, guildId := 2, contractId := 21, currentRoom := 2,
    furthestRoomReached := 2, status := .active, totalLootGained := [],
    bossDefeated := false, failurePenaltyPaid := 0, completionBonusEarned := 0,
    lastActivity := 0, completedAt := none }

/-- Fixture run for C6: already FAILED by an earlier tick — not re-penalised. -/
def c6RunFailed : DungeonRun :=
  { id := 12, dungeonId := 8, guildId := 3, contractId := 22, currentRoom := 0,
    furthestRoomReached := 1, status := .failed, totalLootGained := [],
    bossDefeated := false, failurePenaltyPaid := 500, completionBonusEarned := 0,
    lastActivity := 0, completedAt := none }

/-- Fixture state for C6. -/
def c6State : WorldState := ⟨c6Dungeon, [c6RunActive, c6RunFailed], fun _ => 1000, fun _ => 100⟩

/-- Witness for C6 at the fixture state: the expired ACTIVE dungeon collapses,
guild 2 (one penalised run) is debited exactly the 500 penalty leaving 500
gold, the already-FAILED run of guild 3 is untouched and guild 3 keeps its
1000 gold. -/
theorem checkDungeonCollapses_spec_witness :
    c6State.dungeon.status = .active ∧ c6State.dungeon.dungeonClosesAt ≤ 50 ∧
    (checkDungeonCollapses 50 c6State).dungeon.status = .collapsed ∧
    c6RunFailed ∈ (checkDungeonCollapses 50 c6State).runs ∧
    (checkDungeonCollapses 50 c6State).gold 2 = 500 ∧
    (checkDungeonCollapses 50 c6State).gold 3 = 1000 := by
  have h := checkDungeonCollapses_spec c6State 50 (by decide) (by decide)
  refine ⟨by decide, by decide, h.1, ?_, ?_, ?_⟩
  · exact h.2.2.1 c6RunFailed (by decide) (by decide)
  · rw [h.2.2.2.1 2]
    decide
  · rw [h.2.2.2.1 3]
    decide

/-! ## Progression service (`services/dungeon_progression.py`) -/

/-- The rows `retreat_from_dungeon` can touch: the run table and (mentioned by
the claim, never queried by the function) the room-progress table. -/
structure ProgressState where
  runs : List DungeonRun
  roomProgress : List RoomProgress
  deriving DecidableEq, Repr

/-- `retreat_from_dungeon` from `services/dungeon_progression.py`: look the
run up by id; if missing return the `Run not found` failure; otherwise set
`status = SUSPENDED`, `current_room = 0`, stamp `last_activity`, and commit.
The function performs **no** check on the run's current status, and touches
no other column and no RoomProgress row. -/
def retreatFromDungeon (st : ProgressState) (runId now : Nat) : ProgressState × Bool :=
  match st.runs.find? fun r => r.id == runId with
  | none => (st, false)
  | some _ =>
    ({ st with runs := st.runs.map fun r =>
        if r.id = runId then
          { r with status := .suspended, currentRoom := 0, lastActivity := now }
        else r }, true)

/-- C4 as stated by the spec: retreat succeeds only from ACTIVE — for a run
in any other status it fails and changes nothing. -/
def retreatOnlyFromActiveClaim : Prop :=
  ∀ (st : ProgressState) (runId now : Nat) (r : DungeonRun),
    (st.runs.find? fun x => x.id == runId) = some r → r.status ≠ .active →
    retreatFromDungeon st runId now = (st, false)

/-- Fixture run for C4: a COMPLETED run. -/
def c4Run : DungeonRun :=
  { id := 5, dungeonId := 7, guildId := 2, contractId := 9, currentRoom := 5,
    furthestRoomReached := 5, status := .completed,
    totalLootGained := [(0, 300), (1, 150)], bossDefeated := true,
    failurePenaltyPaid := 0, completionBonusEarned := 1000, lastActivity := 3,
    completedAt := some 8 }

/-- Fixture progress row for C4. -/
def c4RoomProgress : RoomProgress :=
  { id := 31, runId := 5, roomId := 17, guildId := 2, state := .cleared,
    combatCompleted := true, lootCollected := [(0, 300)],
    miningCompletionPercent := 0 }

/-- Fixture state for C4. -/
def c4State : ProgressState := ⟨[c4Run], [c4RoomProgress]⟩

/-- C4 counterexample: `retreat_from_dungeon` never inspects `run.status`, so
on the COMPLETED fixture run it succeeds and rewrites the run to SUSPENDED
instead of failing with no state change. -/
theorem retreat_counterexample : ¬ retreatOnlyFromActiveClaim := by
  intro h
  have happ := h c4State 5 9 c4Run (by decide) (by decide)
  exact absurd happ (by decide)

/-- C4 amended: retreat succeeds for every run that exists, whatever its
status: the run becomes SUSPENDED at `current_room = 0` with only
`last_activity` also touched — loot totals, furthest room, boss flag and
bonus fields are preserved on the run, other runs are untouched, and no
RoomProgress record is modified or erased. -/
theorem retreatFromDungeon_spec (st : ProgressState) (runId now : Nat) (r : DungeonRun)
    (hfind : (st.runs.find? fun x => x.id == runId) = some r) :
    ((retreatFromDungeon st runId now).2 = true) ∧
    ((retreatFromDungeon st runId now).1.roomProgress = st.roomProgress) ∧
    ∃ f, (retreatFromDungeon st runId now).1.runs = st.runs.map f ∧
      (∀ x : DungeonRun, x.id ≠ runId → f x = x) ∧
      (∀ x : DungeonRun, x.id = runId →
        (f x).status = .suspended ∧ (f x).currentRoom = 0 ∧
        (f x).lastActivity = now ∧
        (f x).totalLootGained = x.totalLootGained ∧
        (f x).furthestRoomReached = x.furthestRoomReached ∧
        (f x).bossDefeated = x.bossDefeated ∧
        (f x).completionBonusEarned = x.completionBonusEarned ∧
        (f x).failurePenaltyPaid = x.failurePenaltyPaid ∧
        (f x).id = x.id ∧ (f x).guildId = x.guildId ∧
        (f x).dungeonId = x.dungeonId ∧ (f x).contractId = x.contractId) := by
  unfold retreatFromDungeon
  rw [hfind]
  refine ⟨rfl, rfl, _, rfl, ?_, ?_⟩
  · intro x hx
    rw [if_neg hx]
  · intro x hx
    rw [if_pos hx]
    exact ⟨rfl, rfl, rfl, rfl, rfl, rfl, rfl, rfl, rfl, rfl, rfl, rfl⟩

/-- Witness for the amended C4 at the fixture state: the COMPLETED run is
found, retreat reports success and the RoomProgress table is unchanged. -/
theorem retreatFromDungeon_spec_witness :
    ((c4State.runs.find? fun x => x.id == 5) = some c4Run) ∧
    (retreatFromDungeon c4State 5 9).2 = true ∧
    (retreatFromDungeon c4State 5 9).1.roomProgress = c4State.roomProgress := by
  have h := retreatFromDungeon_spec c4State 5 9 c4Run (by decide)
  exact ⟨by decide, h.1, h.2.1⟩

/-- Result of a `start_mining_operation` call.  `failure` is a structured
`{"success": False, ...}` return; `attrError` is an uncaught Python
`AttributeError`; `started` is the success return the remaining code would
produce — the theorems show it is unreachable. -/
inductive MiningStartResult
  | failure
  | attrError
  | started
  deriving DecidableEq, Repr

/-- `start_mining_operation` from `services/dungeon_progression.py`, lines
231-291, translated statement by statement:
1. look up the run; missing → failure (`Run not found`);
2. look up the room by `(dungeon_id, room_number)`; if missing, the next
   query dereferences `room.id` on `None` → AttributeError;
3. look up the RoomProgress by `(run_id, room.id)`; if it is missing or its
   state is not CLEARED → failure (`Room not cleared or not accessible`);
4. the duplicate-mining check then evaluates
   `RoomProgress.room_progress_id` — an attribute that does not exist on the
   `RoomProgress` model (the column lives on `MiningOperation`) — so every
   call that reaches this statement dies with AttributeError; the creation
   of the MiningOperation and the flip of the room to MINING below it are
   dead code. -/
def startMiningOperation (runs : List DungeonRun) (rooms : List DungeonRoom)
    (rps : List RoomProgress) (runId roomNumber minersCount now : Nat) :
    MiningStartResult :=
  match runs.find? fun r => r.id == runId with
  | none => .failure
  | some run =>
    match rooms.find? fun ro => ro.dungeonId == run.dungeonId &&
        ro.roomNumber == roomNumber with
    | none => .attrError
    | some room =>
      match rps.find? fun rp => rp.runId == runId && rp.roomId == room.id with
      | none => .failure
      | some rp =>
        if rp.state = RoomState.cleared then .attrError
        else .failure

/-- Fixture run for C5: an ACTIVE run of dungeon 7. -/
def c5Run : DungeonRun :=
  { id := 6, dungeonId := 7, guildId := 2, contractId := 9, currentRoom := 2,
    furthestRoomReached := 2, status := .active, totalLootGained := [],
    bossDefeated := false, failurePenaltyPaid := 0, completionBonusEarned := 0,
    lastActivity := 3, completedAt := none }

/-- Fixture room for C5: room 1 of dungeon 7. -/
def c5Room : DungeonRoom :=
  { id := 17, dungeonId := 7, roomNumber := 1, isBossRoom := false,
    combatDifficulty := 25, miningResources := [(0, 10), (1, 2), (2, 1)],
    miningDurationHours := 4 }

/-- Fixture CLEARED progress row for C5: mining should be able to start. -/
def c5ClearedRp : RoomProgress :=
  { id := 32, runId := 6, roomId := 17, guildId := 2, state := .cleared,
    combatCompleted := true, lootCollected := [], miningCompletionPercent := 0 }

/-- Fixture COMBAT progress row for C5 (not cleared). -/
def c5CombatRp : RoomProgress :=
  { id := 33, runId := 6, roomId := 17, guildId := 2, state := .combat,
    combatCompleted := false, lootCollected := [], miningCompletionPercent := 0 }

/-- C5: the guards before the bug behave as claimed — a room whose progress
is not CLEARED is refused with a structured failure — but no call ever
succeeds: any call that passes the CLEARED check crashes with AttributeError
on `RoomProgress.room_progress_id` (a column that exists only on
`MiningOperation`), so the claimed creation of a MiningOperation and the
flip to MINING are unreachable; at the fixture input (CLEARED room, no
existing operation) the call crashes instead of succeeding. -/
theorem startMiningOperation_bug :
    (∀ (runs : List DungeonRun) (rooms : List DungeonRoom) (rps : List RoomProgress)
      (runId roomNumber minersCount now : Nat),
      startMiningOperation runs rooms rps runId roomNumber minersCount now ≠ .started) ∧
    startMiningOperation [c5Run] [c5Room] [c5CombatRp] 6 1 1 9 = .failure ∧
    startMiningOperation [c5Run] [c5Room] [c5ClearedRp] 6 1 1 9 = .attrError := by
  refine ⟨?_, by decide, by decide⟩
  intro runs rooms rps runId roomNumber minersCount now h
  unfold startMiningOperation at h
  split at h
  · cases h
  · split at h
    · cases h
    · split at h
      · cases h
      · split at h <;> cases h

/-! ## Mining tick (`services/dungeon_time_manager.py`,
`update_mining_operations` and `_update_mining_resources`) -/

/-- The `MiningOperation` row, with the JSON dictionaries embedded as an
association list (`target_resources`, iterated by the code) and a total map
with default 0 (`resources_extracted`, accessed via `.get(k, 0)` and item
assignment). -/
structure MiningOperation where
  runId : Nat
  roomProgressId : Nat
  guildId : Nat
  minersAssigned : Nat
  totalDurationHours : Int
  hoursCompleted : ℚ
  completionPercentage : ℚ
  targetResources : List (Nat × Int)
  resourcesExtracted : Nat → Int
  isActive : Bool
  isCompleted : Bool
  lastUpdate : ℚ

/-- `_update_mining_resources`: for every resource in the target table,
compute `target_extracted = int((completion_pct / 100.0) * total_amount)`
and raise the extracted amount to it when it is larger. -/
def updateMiningResources (target : List (Nat × Int)) (current : Nat → Int)
    (pct : ℚ) : Nat → Int :=
  target.foldl
    (fun cur kv =>
      let te := pyTrunc ((pct / 100) * (kv.2 : ℚ))
      if cur kv.1 < te then fun k => if k = kv.1 then te else cur k else cur)
    current

/-- One pass of the `update_mining_operations` loop body over one operation
(`now` in hours): selected only while `is_active` and not `is_completed`;
advances `hours_completed` by the wall-clock time since `last_update`,
recomputes `completion_percentage = min(100, hours/total*100)`, extracts
resources at that percentage, and completes the operation exactly when the
percentage reaches 100.  (The accompanying flip of the RoomProgress row to
EXHAUSTED carries no numeric state and is not modelled.) -/
def miningTick (now : ℚ) (op : MiningOperation) : MiningOperation :=
  if op.isActive = true ∧ op.isCompleted = false then
    let hoursElapsed := now - op.lastUpdate
    let hours := op.hoursCompleted + hoursElapsed
    let pct := min 100 ((hours / (op.totalDurationHours : ℚ)) * 100)
    let res := updateMiningResources op.targetResources op.resourcesExtracted pct
    { op with hoursCompleted := hours, lastUpdate := now, completionPercentage := pct,
              resourcesExtracted := res,
              isCompleted := if 100 ≤ pct then true else op.isCompleted,
              isActive := if 100 ≤ pct then false else op.isActive }
  else op

theorem pyTrunc_le_of_le (q : ℚ) (amt : Int) (hq : q ≤ (amt : ℚ)) : pyTrunc q ≤ amt := by
  unfold pyTrunc
  split_ifs with h
  · calc ⌈q⌉ ≤ ⌈(amt : ℚ)⌉ := Int.ceil_le_ceil hq
      _ = amt := Int.ceil_intCast amt
  · calc ⌊q⌋ ≤ ⌊(amt : ℚ)⌋ := Int.floor_le_floor hq
      _ = amt := Int.floor_intCast amt

theorem updateMiningResources_mono (target : List (Nat × Int)) (pct : ℚ) :
    ∀ (current : Nat → Int) (k : Nat),
      current k ≤ updateMiningResources target current pct k := by
  induction target with
  | nil => intro current k; exact le_refl _
  | cons kv t ih =>
    intro current k
    unfold updateMiningResources
    rw [List.foldl_cons]
    by_cases hlt : current kv.1 < pyTrunc ((pct / 100) * (kv.2 : ℚ))
    · rw [if_pos hlt]
      refine le_trans ?_ (ih _ k)
      by_cases hk : k = kv.1
      · rw [if_pos hk, hk]
        exact le_of_lt hlt
      · rw [if_neg hk]
    · rw [if_neg hlt]
      exact ih _ k

theorem updateMiningResources_apply_notmem (target : List (Nat × Int)) (pct : ℚ) :
    ∀ (current : Nat → Int) (k : Nat), k ∉ target.map Prod.fst →
      updateMiningResources target current pct k = current k := by
  induction target with
  | nil => intro current k _; rfl
  | cons kv t ih =>
    intro current k hk
    simp only [List.map_cons, List.mem_cons] at hk
    push_neg at hk
    unfold updateMiningResources
    rw [List.foldl_cons]
    by_cases hlt : current kv.1 < pyTrunc ((pct / 100) * (kv.2 : ℚ))
    · rw [if_pos hlt]
      have hstep := ih (fun j => if j = kv.1 then pyTrunc ((pct / 100) * (kv.2 : ℚ))
        else current j) k hk.2
      unfold updateMiningResources at hstep
      rw [hstep]
      exact if_neg hk.1
    · rw [if_neg hlt]
      exact ih current k hk.2

theorem updateMiningResources_bounded (pct : ℚ) (hpct : pct ≤ 100) :
    ∀ (target : List (Nat × Int)) (current : Nat → Int),
      (target.map Prod.fst).Nodup →
      (∀ kv ∈ target, 0 ≤ kv.2 ∧ current kv.1 ≤ kv.2) →
      ∀ kv ∈ target, updateMiningResources target current pct kv.1 ≤ kv.2 := by
  intro target
  induction target with
  | nil => intro current _ _ kv hkv; cases hkv
  | cons kv0 t ih =>
    intro current hnodup hinv kv hkv
    have hnodup' : (t.map Prod.fst).Nodup := by
      simp only [List.map_cons, List.nodup_cons] at hnodup
      exact hnodup.2
    have hhead : kv0.1 ∉ t.map Prod.fst := by
      simp only [List.map_cons, List.nodup_cons] at hnodup
      exact hnodup.1
    have hte : pyTrunc ((pct / 100) * (kv0.2 : ℚ)) ≤ kv0.2 := by
      refine pyTrunc_le_of_le _ _ ?_
      have h0 : (0 : ℚ) ≤ (kv0.2 : ℚ) := by
        exact_mod_cast (hinv kv0 (List.mem_cons_self _ _)).1
      have h1 : pct / 100 ≤ 1 := by linarith
      calc (pct / 100) * (kv0.2 : ℚ) ≤ 1 * (kv0.2 : ℚ) :=
            mul_le_mul_of_nonneg_right h1 h0
        _ = (kv0.2 : ℚ) := one_mul _
    unfold updateMiningResources
    rw [List.foldl_cons]
    by_cases hlt : current kv0.1 < pyTrunc ((pct / 100) * (kv0.2 : ℚ))
    · rw [if_pos hlt]
      set cur' := fun k => if k = kv0.1 then pyTrunc ((pct / 100) * (kv0.2 : ℚ))
        else current k with hcur'
      rcases List.mem_cons.mp hkv with rfl | hmem
      · have hfix : updateMiningResources t cur' pct kv.1 = cur' kv.1 :=
          updateMiningResources_apply_notmem t pct cur' kv.1 hhead
        unfold updateMiningResources at hfix
        rw [hfix]
        calc cur' kv.1 = pyTrunc ((pct / 100) * (kv.2 : ℚ)) := if_pos rfl
          _ ≤ kv.2 := hte
      · refine ih cur' hnodup' ?_ kv hmem
        intro kw hkw
        refine ⟨(hinv kw (List.mem_cons_of_mem _ hkw)).1, ?_⟩
        by_cases hk : kw.1 = kv0.1
        · exact absurd (hk ▸ List.mem_map_of_mem Prod.fst hkw) hhead
        · calc cur' kw.1 = current kw.1 := if_neg hk
            _ ≤ kw.2 := (hinv kw (List.mem_cons_of_mem _ hkw)).2
    · rw [if_neg hlt]
      rcases List.mem_cons.mp hkv with rfl | hmem
      · have : updateMiningResources t current pct kv.1 = current kv.1 :=
          updateMiningResources_apply_notmem t pct current kv.1 hhead
        unfold updateMiningResources at this
        rw [this]
        exact (hinv kv (List.mem_cons_self _ _)).2
      · exact ih current hnodup' (fun kw hkw => hinv kw (List.mem_cons_of_mem _ hkw))
          kv hmem

/-- C10: one mining tick never pushes any extracted amount past its target:
if each extracted amount is at most its (non-negative) target before the
tick, this still holds after it; moreover extracted amounts never decrease,
and the recomputed completion percentage is capped at 100. -/
theorem miningTick_extraction_bounded (op : MiningOperation) (now : ℚ)
    (hnodup : (op.targetResources.map Prod.fst).Nodup)
    (hinv : ∀ kv ∈ op.targetResources, 0 ≤ kv.2 ∧ op.resourcesExtracted kv.1 ≤ kv.2) :
    (∀ kv ∈ op.targetResources, (miningTick now op).resourcesExtracted kv.1 ≤ kv.2) ∧
    (∀ k, op.resourcesExtracted k ≤ (miningTick now op).resourcesExtracted k) ∧
    (op.completionPercentage ≤ 100 →
      (miningTick now op).completionPercentage ≤ 100) := by
  unfold miningTick
  by_cases hact : op.isActive = true ∧ op.isCompleted = false
  · rw [if_pos hact]
    refine ⟨?_, ?_, ?_⟩
    · intro kv hkv
      exact updateMiningResources_bounded _ (min_le_left _ _) op.targetResources
        op.resourcesExtracted hnodup hinv kv hkv
    · intro k
      exact updateMiningResources_mono op.targetResources _ op.resourcesExtracted k
    · intro _
      exact min_le_left _ _
  · rw [if_neg hact]
    exact ⟨fun kv hkv => (hinv kv hkv).2, fun k => le_refl _, fun h => h⟩

/-- Fixture mining operation for C10: a 4-hour job over the generated
resource table of a rank-C room 1, one hour in. -/
def c10Op : MiningOperation :=
  { runId := 6, roomProgressId := 32, guildId := 2, minersAssigned := 1,
    totalDurationHours := 4, hoursCompleted := 1, completionPercentage := 25,
    targetResources := [(0, 10), (1, 2), (2, 1)],
    resourcesExtracted := fun k => if k = 0 then 2 else 0,
    isActive := true, isCompleted := false, lastUpdate := 1 }

/-- Witness for C10: three hours later the fixture operation completes; the
iron-ore extraction reaches its target 10 and does not exceed it, and the
percentage sits at the 100 cap. -/
theorem miningTick_extraction_bounded_witness :
    ((c10Op.targetResources.map Prod.fst).Nodup) ∧
    ((miningTick 4 c10Op).resourcesExtracted 0 ≤ 10) ∧
    (c10Op.resourcesExtracted 0 ≤ (miningTick 4 c10Op).resourcesExtracted 0) ∧
    ((miningTick 4 c10Op).completionPercentage ≤ 100) := by
  have h := miningTick_extraction_bounded c10Op 4 (by decide)
    (by intro kv hkv; fin_cases hkv <;> constructor <;> decide)
  exact ⟨by decide, h.1 (0, 10) (by decide), h.2.1 0, h.2.2 (by norm_num [c10Op])⟩

end GuildedIn

namespace GuildedIn

/-- C7: `get_guild_rank` maps price to tier by the documented thresholds
(≥800→S, ≥401→A, ≥201→B, ≥101→C, ≥51→D, else E) and is monotonically
non-decreasing in the share price under the order E<D<C<B<A<S. -/
theorem getGuildRank_thresholds_and_monotone :
    (∀ p : ℚ,
      (800 ≤ p → getGuildRank p = .S) ∧
      (401 ≤ p ∧ p < 800 → getGuildRank p = .A) ∧
      (201 ≤ p ∧ p < 401 → getGuildRank p = .B) ∧
      (101 ≤ p ∧ p < 201 → getGuildRank p = .C) ∧
      (51 ≤ p ∧ p < 101 → getGuildRank p = .D) ∧
      (p < 51 → getGuildRank p = .E)) ∧
    ∀ p1 p2 : ℚ, p1 < p2 → rankValue (getGuildRank p1) ≤ rankValue (getGuildRank p2) := by
  constructor
  · intro p
    refine ⟨?_, ?_, ?_, ?_, ?_, ?_⟩ <;>
      · intro h
        unfold getGuildRank
        split_ifs <;> first | rfl | (exfalso; rcases h with ⟨h1, h2⟩ <;> linarith) |
          (exfalso; linarith)
  · intro p1 p2 hlt
    unfold getGuildRank
    split_ifs <;> simp [rankValue] <;> linarith

/-- Witness for C7 at concrete prices: 900 is rank S, and monotonicity applied
at the pair 50 < 800. -/
theorem getGuildRank_witness :
    getGuildRank 900 = .S ∧
    rankValue (getGuildRank 50) ≤ rankValue (getGuildRank 800) := by
  refine ⟨(getGuildRank_thresholds_and_monotone.1 900).1 (by norm_num), ?_⟩
  exact getGuildRank_thresholds_and_monotone.2 50 800 (by norm_num)

/-- C9: the bid computed by `BotGuild.calculate_dungeon_bid` never exceeds
`0.8 × gold`, whatever the dungeon value, competition level, personality and
behavior state produce as the raw bid (for a non-negative treasury). -/
theorem calculateDungeonBid_capped (b : BotGuild) (dungeonValue competitionLevel : Int)
    (hgold : 0 ≤ b.gold) :
    ((calculateDungeonBid b dungeonValue competitionLevel : ℚ)) ≤ (8 / 10) * (b.gold : ℚ) := by
  have hcap : (pyTrunc ((b.gold : ℚ) * (8 / 10)) : ℚ) ≤ (8 / 10) * (b.gold : ℚ) := by
    have hq : (0 : ℚ) ≤ (b.gold : ℚ) * (8 / 10) := by
      have : (0 : ℚ) ≤ (b.gold : ℚ) := by exact_mod_cast hgold
      positivity
    rw [pyTrunc, if_neg (by linarith)]
    calc ((⌊(b.gold : ℚ) * (8 / 10)⌋ : ℚ)) ≤ (b.gold : ℚ) * (8 / 10) := Int.floor_le _
      _ = (8 / 10) * (b.gold : ℚ) := by ring
  have hmin : calculateDungeonBid b dungeonValue competitionLevel ≤
      pyTrunc ((b.gold : ℚ) * (8 / 10)) := by
    unfold calculateDungeonBid
    exact min_le_right _ _
  calc ((calculateDungeonBid b dungeonValue competitionLevel : ℚ))
      ≤ (pyTrunc ((b.gold : ℚ) * (8 / 10)) : ℚ) := by exact_mod_cast hmin
    _ ≤ (8 / 10) * (b.gold : ℚ) := hcap

/-- A bot used in the C9 witness: the spec's scenario bot with `gold = 1000`
and an aggressive configuration whose raw bid exceeds the cap. -/
def witnessBot : BotGuild :=
  { id := 1, gold := 1000, sharePrice := 100,
    personalityType := .aggressiveTrader, currentBehavior := .aggressive,
    aggressionLevel := 1 / 2, riskTolerance := 1,
    recentPerformanceScore := 50, consecutiveSuccessfulDays := 0 }

/-- Witness for C9: the scenario bot (gold 1000, raw bid 1755 > 800) bids at
most 800 = 0.8 × 1000; indeed its final bid is exactly 800. -/
theorem calculateDungeonBid_capped_witness :
    ((calculateDungeonBid witnessBot 1950 5 : ℚ)) ≤ (8 / 10) * ((1000 : Int) : ℚ) ∧
    calculateDungeonBid witnessBot 1950 5 = 800 := by
  refine ⟨calculateDungeonBid_capped witnessBot 1950 5 (by norm_num [witnessBot]), ?_⟩
  norm_num [calculateDungeonBid, witnessBot, pyTrunc]

/-- C8: the success chance is the raw power ratio clamped into
`[0.05, 0.95]` (it always lies in that band, equals the raw ratio whenever
the ratio itself is in band), and on defeat a strictly positive experience
strictly below the victory experience for the same difficulty is granted —
the `0 < difficulty` hypothesis holds for every room the generator produces,
as the last conjunct shows. -/
theorem simulateCombat_clamp_and_exp (advs : List AdventurerStats) (difficulty : Int)
    (r1 r2 : ℚ) (hd : 0 < difficulty) :
    (∀ (rk : DungeonRank) (n : Nat), 1 ≤ n → 0 < generatedRoomDifficulty rk n) ∧
    (5 / 100 ≤ successChance advs difficulty ∧ successChance advs difficulty ≤ 95 / 100) ∧
    (successChance advs difficulty =
      min (95 / 100) (max (5 / 100)
        ((partyPower advs : ℚ) / ((partyPower advs : ℚ) + (difficulty : ℚ) * 10)))) ∧
    (5 / 100 ≤ (partyPower advs : ℚ) / ((partyPower advs : ℚ) + (difficulty : ℚ) * 10) →
      (partyPower advs : ℚ) / ((partyPower advs : ℚ) + (difficulty : ℚ) * 10) ≤ 95 / 100 →
      successChance advs difficulty =
        (partyPower advs : ℚ) / ((partyPower advs : ℚ) + (difficulty : ℚ) * 10)) ∧
    ((simulateCombat advs difficulty r1).victory = false →
      (simulateCombat advs difficulty r2).victory = true →
      0 < (simulateCombat advs difficulty r1).expGained ∧
      (simulateCombat advs difficulty r1).expGained <
        (simulateCombat advs difficulty r2).expGained) := by
  refine ⟨?_, ⟨?_, ?_⟩, rfl, ?_, ?_⟩
  · intro rk n hn
    cases rk <;> simp only [generatedRoomDifficulty, baseDifficulty] <;> omega
  · exact le_min (by norm_num) (le_max_left _ _)
  · exact min_le_left _ _
  · intro h1 h2
    unfold successChance
    dsimp only
    rw [max_eq_right h1, min_eq_right h2]
  · intro h1 h2
    by_cases hr1 : r1 < successChance advs difficulty
    · exfalso
      unfold simulateCombat at h1
      rw [if_pos hr1] at h1
      simp at h1
    · by_cases hr2 : r2 < successChance advs difficulty
      · unfold simulateCombat
        rw [if_neg hr1, if_pos hr2]
        dsimp only
        exact ⟨by omega, by omega⟩
      · exfalso
        unfold simulateCombat at h2
        rw [if_neg hr2] at h2
        simp at h2

/-- Witness for C8: a level-2 adventurer against difficulty 3; roll 1 is a
defeat, roll 0 is a victory; defeat grants 6 exp, strictly between 0 and the
victory's 15. -/
theorem simulateCombat_witness :
    (5 / 100 ≤ successChance [⟨2, 5, 5⟩] 3 ∧ successChance [⟨2, 5, 5⟩] 3 ≤ 95 / 100) ∧
    (0 < (simulateCombat [⟨2, 5, 5⟩] 3 1).expGained ∧
      (simulateCombat [⟨2, 5, 5⟩] 3 1).expGained < (simulateCombat [⟨2, 5, 5⟩] 3 0).expGained) := by
  have h := simulateCombat_clamp_and_exp [⟨2, 5, 5⟩] 3 1 0 (by norm_num)
  refine ⟨h.2.1, h.2.2.2.2 ?_ ?_⟩
  · norm_num [simulateCombat, successChance, partyPower]
  · norm_num [simulateCombat, successChance, partyPower]

end GuildedIn

